import Mathlib

/-!
# Keypress Pattern Analyzer — verification of the analysis core

Shallow embedding of the keystroke-dynamics engine in `script.js`:
the statistics helpers, the WPM calculation, the capture-event state
machine (keydown/keyup handlers with the digraph accumulator), the
metric extractor, the digraph classifier, the 8-point identifiability
score, the profile import logic, and the profile-similarity function.

Modelling conventions:
* JS numbers carrying timing data are modelled as exact rationals `ℚ`;
  values produced through `Math.sqrt` live in `ℝ` (`Real.sqrt`).
* A JS computation that produces `NaN` (such as `0/0` in the cosine
  similarity) is modelled as `Option.none`; a finite result is `some r`.
* JS `Map` objects (insertion-ordered, unique keys) are modelled as
  association lists `List (String × α)` with `set` updating in place
  and appending fresh keys at the end, exactly like `Map.set`.
* JS strings manipulated character by character are modelled as
  `List Char`.
-/

namespace KPA

/-! ## Statistics helpers (script.js lines 1037-1047) -/

/-- `average` from script.js:
`if (arr.length === 0) return 0; return arr.reduce((a, b) => a + b, 0) / arr.length;` -/
def average (arr : List ℚ) : ℚ :=
  if arr.length = 0 then 0 else arr.sum / arr.length

/-- The argument of `Math.sqrt` inside `standardDeviation`:
the average of the squared deviations (`squareDiffs` in script.js). -/
def sqDiffAvg (arr : List ℚ) : ℚ :=
  average (arr.map fun value => (value - average arr) ^ 2)

/-- `standardDeviation` from script.js:
`if (arr.length === 0) return 0;` then `Math.sqrt(average(squareDiffs))`
with `squareDiffs = arr.map(v => Math.pow(v - avg, 2))`. -/
noncomputable def standardDeviation (arr : List ℚ) : ℝ :=
  if arr.length = 0 then 0 else Real.sqrt (sqDiffAvg arr)

theorem average_nil : average [] = 0 := rfl

theorem standardDeviation_nil : standardDeviation [] = 0 := by
  simp [standardDeviation]

theorem average_nonneg (arr : List ℚ) (h : ∀ x ∈ arr, 0 ≤ x) : 0 ≤ average arr := by
  unfold average
  split
  · exact le_refl 0
  · exact div_nonneg (List.sum_nonneg h) (by positivity)

theorem sqDiffAvg_nonneg (arr : List ℚ) : 0 ≤ sqDiffAvg arr := by
  apply average_nonneg
  intro x hx
  simp only [List.mem_map] at hx
  obtain ⟨v, _, rfl⟩ := hx
  positivity

theorem average_pos_length (arr : List ℚ) (h : arr ≠ []) :
    average arr = arr.sum / arr.length := by
  unfold average
  rw [if_neg]
  simpa using h

theorem standardDeviation_sq (arr : List ℚ) (h : arr ≠ []) :
    (standardDeviation arr) ^ 2 = (sqDiffAvg arr : ℝ) := by
  unfold standardDeviation
  rw [if_neg (by simpa using h)]
  rw [Real.sq_sqrt]
  exact_mod_cast sqDiffAvg_nonneg arr

/-! ## Words-per-minute (script.js lines 1049-1053)

`calculateWPM` runs `text.trim().split(/\s+/).length`.  The text is a JS
string, modelled as `List Char`.  Splitting a non-empty trimmed string on
runs of whitespace yields exactly the maximal non-whitespace runs, counted
below by `countW`; splitting the *empty* string on `/\s+/` yields `['']`,
so an empty trimmed text has length 1 — the `if` branch in `jsWordCount`. -/

/-- Number of maximal non-whitespace runs of a character list.  The flag
records whether the scan is currently inside a run. -/
def countW (inWord : Bool) : List Char → ℕ
  | [] => 0
  | c :: cs =>
    if c.isWhitespace then countW false cs
    else (if inWord then 0 else 1) + countW true cs

/-- JS `String.prototype.trim`: drop leading and trailing whitespace. -/
def jsTrim (s : List Char) : List Char :=
  (((s.dropWhile Char.isWhitespace).reverse.dropWhile Char.isWhitespace).reverse)

/-- `text.trim().split(/\s+/).length` — note the JS artifact: splitting the
empty string yields `['']`, giving word count 1 for an all-whitespace text. -/
def jsWordCount (text : List Char) : ℕ :=
  let t := jsTrim text
  if t = [] then 1 else countW false t

/-- JS `Math.round` on a non-negative quotient: round half away from zero,
i.e. `⌊x + 1/2⌋`. -/
def jsRound (q : ℚ) : ℤ := ⌊q + 1 / 2⌋

/-- `calculateWPM` from script.js:
`const words = text.trim().split(/\s+/).length;
 const minutes = durationMs / 60000;
 return minutes > 0 ? Math.round(words / minutes) : 0;` -/
def calculateWPM (text : List Char) (durationMs : ℚ) : ℤ :=
  let words : ℚ := jsWordCount text
  let minutes := durationMs / 60000
  if 0 < minutes then jsRound (words / minutes) else 0

/-- Modelled from the spec's words for claim C6: `wordCount` "splits on runs
of whitespace and ignores leading/trailing empty tokens", so an empty or
all-whitespace text has word count 0. -/
def specWordCount (text : List Char) : ℕ := countW false text

theorem countW_dropWhile_ws (s : List Char) :
    countW false (s.dropWhile Char.isWhitespace) = countW false s := by
  induction s with
  | nil => rfl
  | cons c cs ih =>
    by_cases hc : c.isWhitespace
    · rw [List.dropWhile_cons_of_pos (by simpa using hc)]
      rw [ih]
      simp [countW, hc]
    · rw [List.dropWhile_cons_of_neg (by simpa using hc)]

theorem countW_all_ws (w : List Char) (hw : ∀ c ∈ w, c.isWhitespace) (b : Bool) :
    countW b w = 0 := by
  induction w generalizing b with
  | nil => rfl
  | cons c cs ih =>
    have hc : c.isWhitespace := hw c (by simp)
    simp only [countW, hc, if_true]
    exact ih (fun x hx => hw x (by simp [hx])) false

theorem countW_append_ws (b : Bool) (s w : List Char)
    (hw : ∀ c ∈ w, c.isWhitespace) : countW b (s ++ w) = countW b s := by
  induction s generalizing b with
  | nil =>
    simpa [countW] using countW_all_ws w hw b
  | cons c cs ih =>
    simp only [List.cons_append, countW]
    by_cases hc : c.isWhitespace <;> simp [hc, ih]

theorem countW_jsTrim (s : List Char) : countW false (jsTrim s) = countW false s := by
  unfold jsTrim
  set u := s.dropWhile Char.isWhitespace with hu
  have hsplit : u = (u.reverse.dropWhile Char.isWhitespace).reverse ++
      (u.reverse.takeWhile Char.isWhitespace).reverse := by
    have := List.takeWhile_append_dropWhile (p := Char.isWhitespace) (l := u.reverse)
    calc u = u.reverse.reverse := by simp
    _ = (u.reverse.takeWhile Char.isWhitespace ++ u.reverse.dropWhile Char.isWhitespace).reverse := by
          rw [this]
    _ = _ := by rw [List.reverse_append]
  have hws : ∀ c ∈ (u.reverse.takeWhile Char.isWhitespace).reverse, c.isWhitespace := by
    intro c hc
    rw [List.mem_reverse] at hc
    have := List.mem_takeWhile_imp hc
    simpa using this
  calc countW false (u.reverse.dropWhile Char.isWhitespace).reverse
      = countW false ((u.reverse.dropWhile Char.isWhitespace).reverse ++
          (u.reverse.takeWhile Char.isWhitespace).reverse) :=
        (countW_append_ws _ _ _ hws).symm
    _ = countW false u := by rw [← hsplit]
    _ = countW false s := countW_dropWhile_ws s

theorem countW_ge_one (t : List Char) (h : ∃ c ∈ t, ¬c.isWhitespace) :
    1 ≤ countW false t := by
  induction t with
  | nil => simp at h
  | cons c cs ih =>
    obtain ⟨d, hd, hdw⟩ := h
    by_cases hc : c.isWhitespace
    · have hne : d ≠ c := fun he => hdw (he ▸ hc)
      have : d ∈ cs := by
        rcases List.mem_cons.mp hd with h1 | h1
        · exact absurd h1 hne
        · exact h1
      simpa [countW, hc] using ih ⟨d, this, hdw⟩
    · simp [countW, hc]

theorem dropWhile_exists_not (p : Char → Bool) (l : List Char)
    (h : l.dropWhile p ≠ []) : ∃ c ∈ l.dropWhile p, ¬p c := by
  induction l with
  | nil => simp at h
  | cons c cs ih =>
    by_cases hc : p c
    · rw [List.dropWhile_cons_of_pos hc] at h ⊢
      exact ih h
    · rw [List.dropWhile_cons_of_neg hc]
      exact ⟨c, by simp, by simpa using hc⟩

theorem jsTrim_nonempty_exists_not_ws (s : List Char) (h : jsTrim s ≠ []) :
    ∃ c ∈ jsTrim s, ¬c.isWhitespace := by
  unfold jsTrim at h ⊢
  have h2 : ((s.dropWhile Char.isWhitespace).reverse.dropWhile Char.isWhitespace) ≠ [] := by
    intro he
    rw [he] at h
    exact h rfl
  obtain ⟨c, hc, hcw⟩ := dropWhile_exists_not _ _ h2
  exact ⟨c, by simpa using hc, hcw⟩

theorem jsWordCount_eq_max (text : List Char) :
    jsWordCount text = max 1 (specWordCount text) := by
  unfold jsWordCount specWordCount
  by_cases h : jsTrim text = []
  · rw [if_pos h]
    have h0 : countW false text = 0 := by
      rw [← countW_jsTrim, h]
      rfl
    rw [h0]
    simp
  · rw [if_neg h]
    have h1 : 1 ≤ countW false (jsTrim text) :=
      countW_ge_one _ (jsTrim_nonempty_exists_not_ws text h)
    rw [countW_jsTrim] at h1 ⊢
    exact (max_eq_right h1).symm

/-- Claim C6 (amended): `wpm = round(wordCount'/(durationMs/60000))` when
`durationMs > 0` and `wpm = 0` otherwise, where `wordCount'` is the number of
whitespace-separated words of the text *except* that an empty or
all-whitespace text counts as one word (the JS `''.split(/\s+/) = ['']`
artifact), i.e. `wordCount' = max 1 (specWordCount text)`. -/
theorem C6_wpm_amended (text : List Char) (durationMs : ℚ) :
    calculateWPM text durationMs =
      if 0 < durationMs then
        jsRound ((max 1 (specWordCount text) : ℕ) / (durationMs / 60000))
      else 0 := by
  unfold calculateWPM
  have hiff : 0 < durationMs / 60000 ↔ 0 < durationMs := by
    constructor
    · intro h
      by_contra hn
      push_neg at hn
      have : durationMs / 60000 ≤ 0 := by
        apply div_nonpos_of_nonpos_of_nonneg hn
        norm_num
      linarith
    · intro h
      positivity
  rw [jsWordCount_eq_max]
  by_cases h : 0 < durationMs
  · rw [if_pos (hiff.mpr h), if_pos h]
  · rw [if_neg (fun hc => h (hiff.mp hc)), if_neg h]

/-- Claim C6 counterexample: the claim says an empty text has word count 0,
hence `wpm = round(0 / 1) = 0` for a 60000 ms session; the code computes
`''.trim().split(/\s+/).length = 1` and returns `wpm = 1`. -/
theorem C6_wpm_counterexample :
    calculateWPM [] 60000 = 1 ∧ specWordCount [] = 0 := by
  constructor
  · show (if 0 < (60000 : ℚ) / 60000 then
        jsRound ((jsWordCount [] : ℚ) / ((60000 : ℚ) / 60000)) else 0) = 1
    norm_num [jsWordCount, jsTrim, jsRound]
  · rfl

/-- Claim C7: `average` is the arithmetic mean, `standardDeviation` is the
*population* standard deviation (its square is the sum of squared deviations
divided by N, not N-1), and on the empty list both return exactly 0 (the
`length === 0` guards), never a non-finite value. -/
theorem C7_population_stats (l : List ℚ) (h : l ≠ []) :
    average l = l.sum / l.length ∧
    (standardDeviation l) ^ 2 =
      (((l.map fun x => (x - average l) ^ 2).sum : ℚ) : ℝ) / (l.length : ℝ) ∧
    average ([] : List ℚ) = 0 ∧ standardDeviation ([] : List ℚ) = 0 := by
  refine ⟨average_pos_length l h, ?_, average_nil, standardDeviation_nil⟩
  rw [standardDeviation_sq l h]
  unfold sqDiffAvg
  rw [average_pos_length _ (by simpa using h)]
  rw [List.length_map]
  push_cast
  ring

/-- Witness for C7 at the concrete sample list `[1, 2]`. -/
theorem C7_population_stats_witness :
    ([1, 2] : List ℚ) ≠ [] ∧
    (average [1, 2] = ([1, 2] : List ℚ).sum / ([1, 2] : List ℚ).length ∧
     (standardDeviation [1, 2]) ^ 2 =
       (((([1, 2] : List ℚ).map fun x => (x - average [1, 2]) ^ 2).sum : ℚ) : ℝ) /
         (([1, 2] : List ℚ).length : ℝ) ∧
     average ([] : List ℚ) = 0 ∧ standardDeviation ([] : List ℚ) = 0) :=
  ⟨by decide, C7_population_stats [1, 2] (by decide)⟩

/-! ## Capture state machine (script.js lines 901-990)

The keydown/keyup handlers append to `state.events`, track open presses in
`state.keyStates` and accumulate digraph samples in `state.digraphs`.
`state.running` and the IME toggle are assumed to let events through (the
claims concern the recording logic); the UI-boundary sanitization
(`slice(0, 50)`) is the identity on the already-validated key identifiers
the core receives, per the spec's input contract. -/

/-- Recorded event type: `'down'` or `'up'`. -/
inductive EvType
  | down
  | up
deriving DecidableEq, Repr

/-- A recorded entry of `state.events`.  Only `'up'` events carry the
`dwell` field, hence the `Option`. -/
structure Event where
  type : EvType
  code : String
  key : String
  t : ℚ
  dwell : Option ℚ
deriving DecidableEq, Repr

/-- Per-digraph sample lists, as created by
`{ DD: [], UD: [], DU: [], UU: [] }` in script.js. -/
structure DigraphStats where
  DD : List ℚ
  UD : List ℚ
  DU : List ℚ
  UU : List ℚ
deriving DecidableEq, Repr

/-- The value stored in `state.keyStates`: `{ downTime: t, key: ... }`. -/
structure KeyState where
  downTime : ℚ
  key : String
deriving DecidableEq, Repr

/-- An incoming browser keyboard event (the fields the handlers read),
with `t = performance.now() - state.startedAt` already applied. -/
structure RawEvent where
  isDown : Bool
  code : String
  key : String
  t : ℚ
deriving DecidableEq, Repr

/-- JS `Map.prototype.get` on an insertion-ordered association list. -/
def mapGet {α : Type} (k : String) : List (String × α) → Option α
  | [] => none
  | (k1, v) :: rest => if k1 = k then some v else mapGet k rest

/-- JS `Map.prototype.set`: update an existing key in place, or append a
new key at the end. -/
def mapSet {α : Type} (k : String) (v : α) : List (String × α) → List (String × α)
  | [] => [(k, v)]
  | (k1, v1) :: rest => if k1 = k then (k1, v) :: rest else (k1, v1) :: mapSet k v rest

/-- JS `Map.prototype.delete`. -/
def mapDelete {α : Type} (k : String) : List (String × α) → List (String × α)
  | [] => []
  | (k1, v1) :: rest => if k1 = k then rest else (k1, v1) :: mapDelete k rest

/-- The mutable capture state: `state.events`, `state.keyStates`,
`state.digraphs` of script.js. -/
structure CaptureState where
  events : List Event
  keyStates : List (String × KeyState)
  digraphs : List (String × DigraphStats)
deriving DecidableEq, Repr

/-- The capture state right after `startCapture` (script.js lines 476-478). -/
def initState : CaptureState := ⟨[], [], []⟩

/-- `findLastDownEvent(fromIndex)`: scan `state.events` backwards from
`fromIndex` for the latest `'down'` event (script.js lines 974-981).
Returned as the event itself (the JS code returns the element). -/
def findLastDownEvent (evs : List Event) (fromIndex : ℕ) : Option Event :=
  ((evs.take (fromIndex + 1)).reverse).find? (fun ev => ev.type == EvType.down)

/-- `findNextDownEvent(fromIndex)`: scan `state.events` forwards from
`fromIndex + 1` for the first `'down'` event (script.js lines 983-990).
The JS code returns the index and immediately dereferences it; the model
returns the event. -/
def findNextDownEvent (evs : List Event) (fromIndex : ℕ) : Option Event :=
  (evs.drop (fromIndex + 1)).find? (fun ev => ev.type == EvType.down)

/-- `if (!state.digraphs.has(digraph)) state.digraphs.set(digraph, {DD:[],UD:[],DU:[],UU:[]})`
— ensure the digraph entry exists before pushing a sample. -/
def ensureDigraph (name : String) (ds : List (String × DigraphStats)) :
    List (String × DigraphStats) :=
  if (mapGet name ds).isSome then ds else mapSet name ⟨[], [], [], []⟩ ds

/-- Append one sample to a digraph's `DD` list, creating the entry with
empty lists first when absent (script.js lines 933-936). -/
def pushDD (name : String) (sample : ℚ) (ds : List (String × DigraphStats)) :
    List (String × DigraphStats) :=
  match mapGet name (ensureDigraph name ds) with
  | some s => mapSet name { s with DD := s.DD ++ [sample] } (ensureDigraph name ds)
  | none => ensureDigraph name ds

/-- Append one sample to a digraph's `UD` list, creating the entry with
empty lists first when absent (script.js lines 967-970). -/
def pushUD (name : String) (sample : ℚ) (ds : List (String × DigraphStats)) :
    List (String × DigraphStats) :=
  match mapGet name (ensureDigraph name ds) with
  | some s => mapSet name { s with UD := s.UD ++ [sample] } (ensureDigraph name ds)
  | none => ensureDigraph name ds

/-- `handleKeyDown` (script.js lines 901-939): skip key repeats, record the
event and the open press (under the 10000-event cap), then append a DD
sample keyed by the previous down's key concatenated with this key. -/
def handleKeyDown (st : CaptureState) (e : RawEvent) : CaptureState :=
  if (mapGet e.code st.keyStates).isSome then st
  else
    let ev : Event := ⟨EvType.down, e.code, e.key, e.t, none⟩
    let st1 :=
      if st.events.length < 10000 then
        { st with events := st.events ++ [ev],
                  keyStates := mapSet e.code ⟨e.t, e.key⟩ st.keyStates }
      else st
    if 2 ≤ st1.events.length then
      match findLastDownEvent st1.events (st1.events.length - 2) with
      | some prevDown =>
        { st1 with digraphs := pushDD (prevDown.key ++ e.key) (e.t - prevDown.t) st1.digraphs }
      | none => st1
    else st1

/-- `handleKeyUp` (script.js lines 941-972): ignore a release with no open
press; otherwise record the up event with its dwell, close the press, and
attempt the UD digraph sample via `findNextDownEvent`. -/
def handleKeyUp (st : CaptureState) (e : RawEvent) : CaptureState :=
  match mapGet e.code st.keyStates with
  | none => st
  | some ks =>
    let ev : Event := ⟨EvType.up, e.code, e.key, e.t, some (e.t - ks.downTime)⟩
    let st1 := { st with events := st.events ++ [ev],
                         keyStates := mapDelete e.code st.keyStates }
    match findNextDownEvent st1.events (st1.events.length - 1) with
    | some nextDown =>
      { st1 with digraphs := pushUD (e.key ++ nextDown.key) (nextDown.t - e.t) st1.digraphs }
    | none => st1

/-- One dispatch step of the capture listeners. -/
def stepEvent (st : CaptureState) (e : RawEvent) : CaptureState :=
  if e.isDown then handleKeyDown st e else handleKeyUp st e

/-- Process a whole browser event stream from the initial capture state. -/
def processEvents (raws : List RawEvent) : CaptureState :=
  raws.foldl stepEvent initState

theorem findNextDownEvent_after_last (evs : List Event) (ev : Event) :
    findNextDownEvent (evs ++ [ev]) ((evs ++ [ev]).length - 1) = none := by
  unfold findNextDownEvent
  have hlen : (evs ++ [ev]).length = evs.length + 1 := by simp
  rw [hlen]
  have : (evs ++ [ev]).drop (evs.length + 1 - 1 + 1) = [] := by
    apply List.drop_eq_nil_of_le
    simp
  rw [this]
  rfl

/-- On every keyup, `findNextDownEvent` is called with the just-appended up
event sitting at the last index, so the search space is empty and the
digraph map is never touched by `handleKeyUp`. -/
theorem handleKeyUp_digraphs (st : CaptureState) (e : RawEvent) :
    (handleKeyUp st e).digraphs = st.digraphs := by
  simp only [handleKeyUp]
  cases h : mapGet e.code st.keyStates with
  | none => rfl
  | some ks =>
    simp only [findNextDownEvent_after_last]

theorem mem_mapSet {α : Type} (k : String) (v : α) (ds : List (String × α))
    (p : String × α) (hp : p ∈ mapSet k v ds) : p.2 = v ∨ p ∈ ds := by
  induction ds with
  | nil =>
    simp only [mapSet, List.mem_singleton] at hp
    exact Or.inl (by rw [hp])
  | cons q rest ih =>
    unfold mapSet at hp
    by_cases hk : q.1 = k
    · rw [if_pos hk] at hp
      rcases List.mem_cons.mp hp with h1 | h1
      · exact Or.inl (by rw [h1])
      · exact Or.inr (List.mem_cons_of_mem _ h1)
    · rw [if_neg hk] at hp
      rcases List.mem_cons.mp hp with h1 | h1
      · exact Or.inr (h1 ▸ List.mem_cons_self _ _)
      · rcases ih h1 with h2 | h2
        · exact Or.inl h2
        · exact Or.inr (List.mem_cons_of_mem _ h2)

theorem mapGet_mem {α : Type} (k : String) (ds : List (String × α)) (v : α)
    (h : mapGet k ds = some v) : (k, v) ∈ ds := by
  induction ds with
  | nil => simp [mapGet] at h
  | cons q rest ih =>
    cases q with
    | mk a b =>
      unfold mapGet at h
      by_cases hk : a = k
      · rw [if_pos hk] at h
        injection h with h2
        rw [← hk, ← h2]
        exact List.mem_cons_self _ _
      · rw [if_neg hk] at h
        exact List.mem_cons_of_mem _ (ih h)

theorem ensureDigraph_UD_preserved (name : String)
    (ds : List (String × DigraphStats)) (hds : ∀ q ∈ ds, q.2.UD = [])
    (p : String × DigraphStats) (hp : p ∈ ensureDigraph name ds) : p.2.UD = [] := by
  unfold ensureDigraph at hp
  split at hp
  · exact hds p hp
  · rcases mem_mapSet _ _ _ _ hp with h1 | h1
    · rw [h1]
    · exact hds p h1

theorem pushDD_UD_preserved (name : String) (sample : ℚ)
    (ds : List (String × DigraphStats)) (hds : ∀ q ∈ ds, q.2.UD = [])
    (p : String × DigraphStats) (hp : p ∈ pushDD name sample ds) : p.2.UD = [] := by
  have hinv1 : ∀ q ∈ ensureDigraph name ds, q.2.UD = [] :=
    fun q hq => ensureDigraph_UD_preserved name ds hds q hq
  unfold pushDD at hp
  cases hm : mapGet name (ensureDigraph name ds) with
  | none =>
    rw [hm] at hp
    exact hinv1 p hp
  | some s =>
    rw [hm] at hp
    rcases mem_mapSet _ _ _ _ hp with h1 | h1
    · rw [h1]
      exact hinv1 (name, s) (mapGet_mem _ _ _ hm)
    · exact hinv1 p h1

theorem handleKeyDown_digraphs_cases (st : CaptureState) (e : RawEvent) :
    (handleKeyDown st e).digraphs = st.digraphs ∨
    ∃ name sample, (handleKeyDown st e).digraphs = pushDD name sample st.digraphs := by
  simp only [handleKeyDown]
  split
  · exact Or.inl rfl
  · split
    · split
      · split
        · exact Or.inr ⟨_, _, rfl⟩
        · exact Or.inl rfl
      · exact Or.inl rfl
    · split
      · split
        · exact Or.inr ⟨_, _, rfl⟩
        · exact Or.inl rfl
      · exact Or.inl rfl

theorem handleKeyDown_UD_preserved (st : CaptureState) (e : RawEvent)
    (hst : ∀ q ∈ st.digraphs, q.2.UD = []) :
    ∀ p ∈ (handleKeyDown st e).digraphs, p.2.UD = [] := by
  intro p hp
  rcases handleKeyDown_digraphs_cases st e with h | ⟨name, sample, h⟩
  · rw [h] at hp
    exact hst p hp
  · rw [h] at hp
    exact pushDD_UD_preserved _ _ _ hst p hp

theorem foldl_UD_preserved (raws : List RawEvent) (st : CaptureState)
    (hst : ∀ q ∈ st.digraphs, q.2.UD = []) :
    ∀ p ∈ (raws.foldl stepEvent st).digraphs, p.2.UD = [] := by
  induction raws generalizing st with
  | nil => exact hst
  | cons r rest ih =>
    rw [List.foldl_cons]
    apply ih
    unfold stepEvent
    by_cases hr : r.isDown
    · rw [if_pos hr]
      exact handleKeyDown_UD_preserved st r hst
    · rw [if_neg hr]
      rw [handleKeyUp_digraphs]
      exact hst

/-- The spec's own worked scenario:
`Press(a,0), Press(s,100), Release(a,120), Release(s,210), Press(d,300)`.
The spec derives `UD(a,d) = 180` and `UD(s,d) = 90` for it. -/
def specScenario : List RawEvent :=
  [⟨true, "KeyA", "a", 0⟩, ⟨true, "KeyS", "s", 100⟩,
   ⟨false, "KeyA", "a", 120⟩, ⟨false, "KeyS", "s", 210⟩,
   ⟨true, "KeyD", "d", 300⟩]

/-- Claim C1 (refuted — code bug): `handleKeyUp` calls `findNextDownEvent`
immediately after appending the up event as the *last* element of
`state.events`, so the forward scan for the next press starts past the end
of the array and never finds anything: no UD sample is ever recorded, for
any event stream.  In particular, on the spec's own scenario (a release
followed later by a press) the two digraphs produced carry only DD
samples and every UD list is empty, where the spec expects
`UD(a,d) = 180` and `UD(s,d) = 90`. -/
theorem C1_ud_never_recorded :
    (∀ raws : List RawEvent,
      ((processEvents raws).digraphs.all fun p => p.2.UD.isEmpty) = true) ∧
    (processEvents specScenario).digraphs =
      [("as", ⟨[100], [], [], []⟩), ("sd", ⟨[200], [], [], []⟩)] := by
  constructor
  · intro raws
    rw [List.all_eq_true]
    intro p hp
    have := foldl_UD_preserved raws initState (by intro q hq; simp [initState] at hq) p hp
    simp [List.isEmpty_iff, this]
  · simp [processEvents, specScenario, stepEvent, handleKeyDown, handleKeyUp,
      initState, mapGet, mapSet, mapDelete, pushDD, pushUD, ensureDigraph,
      findLastDownEvent, findNextDownEvent, List.foldl]
    norm_num

/-- Claim C10: a keyup whose physical code has no open press recorded in
`state.keyStates` is a complete no-op — `handleKeyUp` returns at
`if (!keyState) return;` leaving events, key states and digraphs
untouched. -/
theorem C10_keyup_without_press_noop (st : CaptureState) (e : RawEvent)
    (h : mapGet e.code st.keyStates = none) : handleKeyUp st e = st := by
  unfold handleKeyUp
  rw [h]

/-- Witness for C10: a keyup for `KeyA` arriving in the initial state
(no open presses) leaves the state unchanged. -/
theorem C10_keyup_without_press_noop_witness :
    mapGet "KeyA" initState.keyStates = none ∧
    handleKeyUp initState ⟨false, "KeyA", "a", 5⟩ = initState :=
  ⟨rfl, C10_keyup_without_press_noop initState ⟨false, "KeyA", "a", 5⟩ rfl⟩

/-! ## Metric extraction (script.js lines 992-1035) -/

/-- The `state.metrics` record built by `calculateMetrics`. -/
structure Metrics where
  totalKeys : ℕ
  duration : ℚ
  avgDwell : ℚ
  stdDwell : ℝ
  avgFlight : ℚ
  stdFlight : ℝ
  avgDD : ℚ
  stdDD : ℝ
  wpm : ℤ
  dwellTimes : List ℚ
  flightTimes : List ℚ
  ddTimes : List ℚ

/-- The flight-time double loop of `calculateMetrics`: for every `'up'`
event, the time to the first later `'down'` event, if any. -/
def flightTimesOf : List Event → List ℚ
  | [] => []
  | e :: rest =>
    if e.type = EvType.up then
      match rest.find? (fun ev => ev.type == EvType.down) with
      | some d => (d.t - e.t) :: flightTimesOf rest
      | none => flightTimesOf rest
    else flightTimesOf rest

/-- Consecutive differences of the `'down'` events (`ddTimes`). -/
def ddTimesOf (downs : List Event) : List ℚ :=
  (downs.zip downs.tail).map fun p => p.2.t - p.1.t

/-- `calculateMetrics` (script.js lines 992-1035).  On an empty event
stream the JS function hits `if (events.length === 0) return;` and
produces no metrics record at all (leaving the previous `state.metrics`
in place); this early return is modelled as `none`. -/
noncomputable def calculateMetrics (events : List Event) (text : List Char) :
    Option Metrics :=
  if events.length = 0 then none
  else
    let downEvents := events.filter (fun e => e.type == EvType.down)
    let upEvents := events.filter (fun e => e.type == EvType.up)
    let dwellTimes := upEvents.filterMap (fun e => e.dwell)
    let flightTimes := flightTimesOf events
    let ddTimes := ddTimesOf downEvents
    let duration := ((events.getLast?).map (fun e => e.t)).getD 0
    some
      { totalKeys := downEvents.length
        duration := duration
        avgDwell := average dwellTimes
        stdDwell := standardDeviation dwellTimes
        avgFlight := average flightTimes
        stdFlight := standardDeviation flightTimes
        avgDD := average ddTimes
        stdDD := standardDeviation ddTimes
        wpm := calculateWPM text duration
        dwellTimes := dwellTimes
        flightTimes := flightTimes
        ddTimes := ddTimes }

/-- Claim C4 (amended): an empty event stream does *not* yield an all-zero
`MetricsSummary` — `calculateMetrics` returns early and produces no
summary at all (the previous `state.metrics`, the empty object after
`clearAll`, is left untouched).  A summary is absent exactly when the
stream is empty; every non-empty stream produces one (no error). -/
theorem C4_empty_stream_amended (events : List Event) (text : List Char) :
    calculateMetrics events text = none ↔ events = [] := by
  unfold calculateMetrics
  constructor
  · intro h
    by_cases he : events.length = 0
    · exact List.length_eq_zero.mp he
    · rw [if_neg he] at h
      simp at h
  · intro h
    rw [h]
    rfl

/-- Claim C4 counterexample: on the empty stream the code produces no
summary (modelled `none`), while the claim asserts a summary with all-zero
fields is produced. -/
theorem C4_empty_stream_counterexample :
    calculateMetrics [] [] = none := rfl

/-! ## Profile similarity (script.js lines 1914-1925)

`calculateSimilarity` computes the cosine similarity of the feature vectors
`[avgDwell, avgFlight, avgDD]` and returns `dotProduct / (mag1 * mag2)`
with *no* guard: when either magnitude is 0 the dot product is also 0 and
the IEEE division `0/0` yields `NaN`.  `NaN` is modelled as `none`; the
guard below is exactly the condition under which the JS result is `NaN`
(for non-negative sums of squares, `mag1 * mag2 = 0` iff either sum of
squares is 0). -/

/-- Sum of squares of a profile's feature vector
`[m.avgDwell, m.avgFlight, m.avgDD]` — the quantity under the square root
in `mag1`/`mag2`. -/
def featMagSq (m : Metrics) : ℚ :=
  m.avgDwell * m.avgDwell + m.avgFlight * m.avgFlight + m.avgDD * m.avgDD

/-- `calculateSimilarity` from script.js, with `NaN` modelled as `none`. -/
noncomputable def calculateSimilarity (m1 m2 : Metrics) : Option ℝ :=
  if featMagSq m1 = 0 ∨ featMagSq m2 = 0 then none
  else
    some (((m1.avgDwell * m2.avgDwell + m1.avgFlight * m2.avgFlight +
            m1.avgDD * m2.avgDD : ℚ) : ℝ) /
      (Real.sqrt (featMagSq m1) * Real.sqrt (featMagSq m2)))

/-- Test fixture: a metrics record with the given feature vector and all
other fields zero. -/
def mkMetrics (dw fl dd : ℚ) : Metrics :=
  ⟨0, 0, dw, 0, fl, 0, dd, 0, 0, [], [], []⟩

/-- Claim C2 counterexample: for two all-zero profiles (magnitude 0) the
code divides `0 / 0` and returns `NaN` (modelled `none`), not the sentinel
`0` the claim requires. -/
theorem C2_zero_magnitude_counterexample :
    calculateSimilarity (mkMetrics 0 0 0) (mkMetrics 0 0 0) = none ∧
    calculateSimilarity (mkMetrics 0 0 0) (mkMetrics 0 0 0) ≠ some 0 := by
  constructor
  · unfold calculateSimilarity
    rw [if_pos]
    left
    unfold featMagSq mkMetrics
    norm_num
  · unfold calculateSimilarity
    rw [if_pos]
    · exact fun h => Option.noConfusion h
    · left
      unfold featMagSq mkMetrics
      norm_num

/-- Claim C2 (amended): `calculateSimilarity` has no zero-magnitude
fallback — the result is non-finite (`NaN`, modelled `none`) exactly when
either profile's feature vector has magnitude 0, and is a finite real
number otherwise. -/
theorem C2_zero_magnitude_amended (m1 m2 : Metrics) :
    calculateSimilarity m1 m2 = none ↔ (featMagSq m1 = 0 ∨ featMagSq m2 = 0) := by
  unfold calculateSimilarity
  by_cases h : featMagSq m1 = 0 ∨ featMagSq m2 = 0
  · rw [if_pos h]
    simp [h]
  · rw [if_neg h]
    simp [h]

/-- Claim C9: the cosine similarity of a profile with itself is exactly 1
when its feature vector is non-zero (the spec asks for 1.0 within floating
tolerance; in the exact real model the value is exactly 1). -/
theorem C9_self_similarity (m : Metrics)
    (h : ¬(m.avgDwell = 0 ∧ m.avgFlight = 0 ∧ m.avgDD = 0)) :
    calculateSimilarity m m = some 1 := by
  have hpos : 0 < featMagSq m := by
    unfold featMagSq
    rcases not_and_or.mp h with h1 | h12
    · have : 0 < m.avgDwell * m.avgDwell := mul_self_pos.mpr h1
      nlinarith [mul_self_nonneg m.avgFlight, mul_self_nonneg m.avgDD]
    · rcases not_and_or.mp h12 with h2 | h3
      · have : 0 < m.avgFlight * m.avgFlight := mul_self_pos.mpr h2
        nlinarith [mul_self_nonneg m.avgDwell, mul_self_nonneg m.avgDD]
      · have : 0 < m.avgDD * m.avgDD := mul_self_pos.mpr h3
        nlinarith [mul_self_nonneg m.avgDwell, mul_self_nonneg m.avgFlight]
  have hne : ¬(featMagSq m = 0 ∨ featMagSq m = 0) := by
    rw [or_self]
    exact ne_of_gt hpos
  unfold calculateSimilarity
  rw [if_neg hne]
  congr 1
  have hdot : (m.avgDwell * m.avgDwell + m.avgFlight * m.avgFlight +
      m.avgDD * m.avgDD : ℚ) = featMagSq m := by
    unfold featMagSq
    ring
  rw [hdot]
  have hsq : Real.sqrt (featMagSq m) * Real.sqrt (featMagSq m) = ((featMagSq m : ℚ) : ℝ) :=
    Real.mul_self_sqrt (by exact_mod_cast le_of_lt hpos)
  rw [hsq]
  exact div_self (Rat.cast_ne_zero.mpr (ne_of_gt hpos))

/-- Witness for C9 at a concrete profile with feature vector
`[100, 150, 200]`. -/
theorem C9_self_similarity_witness :
    ¬((mkMetrics 100 150 200).avgDwell = 0 ∧ (mkMetrics 100 150 200).avgFlight = 0 ∧
      (mkMetrics 100 150 200).avgDD = 0) ∧
    calculateSimilarity (mkMetrics 100 150 200) (mkMetrics 100 150 200) = some 1 :=
  ⟨by norm_num [mkMetrics], C9_self_similarity (mkMetrics 100 150 200) (by norm_num [mkMetrics])⟩

/-! ## Profile import (script.js lines 1869-1893)

The `reader.onload` handler parses the file, checks only
`Array.isArray(imported)` and, when that passes, concatenates *every*
element onto `state.profiles` — there is no per-record validation.
A profile record is modelled with `Option` fields so that a record with a
missing JSON key (e.g. no `timestamp`) is representable. -/

/-- A (possibly malformed) profile record as parsed from imported JSON;
`none` fields model missing keys. -/
structure ProfileRec where
  name : Option String
  timestamp : Option ℤ
  metrics : Option Metrics
  digraphs : Option (List (String × DigraphStats))
  sourceText : Option (List Char)

/-- The successfully parsed import payload: either a JSON array of records
or some non-array JSON value. -/
inductive ImportPayload
  | arr (records : List ProfileRec)
  | nonArray

/-- The decision logic of the `reader.onload` handler in
`handleFileImport`: `if (Array.isArray(imported)) state.profiles =
[...state.profiles, ...imported]; else alert('Invalid profile format')`. -/
def handleFileImport (existing : List ProfileRec) (payload : ImportPayload) :
    List ProfileRec :=
  match payload with
  | .arr imported => existing ++ imported
  | .nonArray => existing

/-- A well-formed record: every required field present. -/
noncomputable def goodRec : ProfileRec :=
  ⟨some "alice", some 1700000000000, some (mkMetrics 100 150 200), some [], some []⟩

/-- A malformed record: the `timestamp` field is missing. -/
noncomputable def badRec : ProfileRec :=
  ⟨some "bob", none, some (mkMetrics 90 140 210), some [], some []⟩

/-- Claim C3 counterexample: importing one well-formed record together with
one record missing `timestamp` into an empty store accepts *both* records
(the malformed one included), not "exactly one" as the claim states. -/
theorem C3_import_counterexample :
    handleFileImport [] (.arr [goodRec, badRec]) = [goodRec, badRec] ∧
    (handleFileImport [] (.arr [goodRec, badRec])).length = 2 ∧
    badRec.timestamp = none := by
  refine ⟨?_, ?_, rfl⟩ <;> simp [handleFileImport]

/-- Claim C3 (amended): import validates only that the payload is an
array; when it is, every record — malformed or not — is appended to the
existing profiles (no per-record validation, nothing is discarded), and a
non-array payload leaves the store unchanged. -/
theorem C3_import_amended (existing : List ProfileRec) (records : List ProfileRec) :
    handleFileImport existing (.arr records) = existing ++ records ∧
    handleFileImport existing .nonArray = existing :=
  ⟨rfl, rfl⟩

/-! ## Identifiability scoring (script.js lines 624-692)

`generateDetailedSummary` accumulates `identifiabilityScore` over three
independent if/else chains — stability, pattern uniqueness and timing
distinctiveness — against the fixed benchmark table of
`analyzeKeystrokePattern` (lines 730-735), then tiers the total at ≥7 /
≥5 / else. -/

/-- One row of the fixed benchmark table. -/
structure BenchTiers where
  fast : ℚ
  average : ℚ
  slow : ℚ

/-- The `benchmarks` object of `analyzeKeystrokePattern`:
`dwellTime: { fast: 80, average: 120, slow: 180 }`,
`flightTime: { fast: 120, average: 180, slow: 250 }`. -/
def benchmarksDwellTime : BenchTiers := ⟨80, 120, 180⟩

/-- Flight-time row of the benchmark table. -/
def benchmarksFlightTime : BenchTiers := ⟨120, 180, 250⟩

/-- The 8-point `identifiabilityScore` accumulation of
`generateDetailedSummary`, as a function of the stability percentage, the
uniqueness percentage and the session's average dwell/flight times. -/
def identifiabilityScore (stability uniqueness avgDwell avgFlight : ℚ) : ℕ :=
  let s1 : ℕ :=
    if 70 ≤ stability ∧ stability ≤ 85 then 3
    else if 85 < stability then 1
    else if stability < 50 then 1
    else 2
  let s2 : ℕ :=
    if 60 ≤ uniqueness then 3
    else if 40 ≤ uniqueness then 2
    else 1
  let dwellUniqueness := |avgDwell - benchmarksDwellTime.average| / benchmarksDwellTime.average
  let flightUniqueness := |avgFlight - benchmarksFlightTime.average| / benchmarksFlightTime.average
  let s3 : ℕ :=
    if 3 / 10 < dwellUniqueness ∨ 3 / 10 < flightUniqueness then 2
    else if 3 / 20 < dwellUniqueness ∨ 3 / 20 < flightUniqueness then 1
    else 0
  s1 + s2 + s3

/-- The three tiering branches of script.js lines 671-692
(the spec's "high" / "medium" / "low"). -/
inductive SecurityTier
  | high
  | medium
  | low
deriving DecidableEq, Repr

/-- `if (identifiabilityScore >= 7) ... else if (identifiabilityScore >= 5)
... else ...` (script.js lines 671-692). -/
def securityTier (score : ℕ) : SecurityTier :=
  if 7 ≤ score then .high
  else if 5 ≤ score then .medium
  else .low

/-- Stability bucket as the claim words it: +3 if `70 ≤ s ≤ 85`, +1 if
`s > 85` or `s < 50`, otherwise +2. -/
def claimStabilityBucket (s : ℚ) : ℕ :=
  if 70 ≤ s ∧ s ≤ 85 then 3
  else if 85 < s ∨ s < 50 then 1
  else 2

/-- Uniqueness bucket as the claim words it: +3 if `u ≥ 60`, +2 if
`40 ≤ u < 60`, +1 otherwise. -/
def claimUniquenessBucket (u : ℚ) : ℕ :=
  if 60 ≤ u then 3
  else if 40 ≤ u ∧ u < 60 then 2
  else 1

/-- Timing bucket as the claim words it: +2 if either deviation from the
benchmark average exceeds 0.3, else +1 if either exceeds 0.15, else 0. -/
def claimTimingBucket (dw fl : ℚ) : ℕ :=
  if 3 / 10 < |dw - 120| / 120 ∨ 3 / 10 < |fl - 180| / 180 then 2
  else if 3 / 20 < |dw - 120| / 120 ∨ 3 / 20 < |fl - 180| / 180 then 1
  else 0

theorem stabilityBucket_eq (s : ℚ) :
    (if 70 ≤ s ∧ s ≤ 85 then (3 : ℕ) else if 85 < s then 1 else if s < 50 then 1 else 2) =
      claimStabilityBucket s := by
  unfold claimStabilityBucket
  by_cases h1 : 70 ≤ s ∧ s ≤ 85
  · rw [if_pos h1, if_pos h1]
  · rw [if_neg h1, if_neg h1]
    by_cases h2 : 85 < s
    · rw [if_pos h2, if_pos (Or.inl h2)]
    · rw [if_neg h2]
      by_cases h3 : s < 50
      · rw [if_pos h3, if_pos (Or.inr h3)]
      · rw [if_neg h3, if_neg (by tauto)]

theorem uniquenessBucket_eq (u : ℚ) :
    (if 60 ≤ u then (3 : ℕ) else if 40 ≤ u then 2 else 1) = claimUniquenessBucket u := by
  unfold claimUniquenessBucket
  by_cases h1 : 60 ≤ u
  · rw [if_pos h1, if_pos h1]
  · rw [if_neg h1, if_neg h1]
    by_cases h2 : 40 ≤ u
    · rw [if_pos h2, if_pos ⟨h2, lt_of_not_le h1⟩]
    · rw [if_neg h2, if_neg (fun hc => h2 hc.1)]

theorem timingBucket_eq (dw fl : ℚ) :
    (if 3 / 10 < |dw - benchmarksDwellTime.average| / benchmarksDwellTime.average ∨
        3 / 10 < |fl - benchmarksFlightTime.average| / benchmarksFlightTime.average then (2 : ℕ)
     else if 3 / 20 < |dw - benchmarksDwellTime.average| / benchmarksDwellTime.average ∨
        3 / 20 < |fl - benchmarksFlightTime.average| / benchmarksFlightTime.average then 1
     else 0) = claimTimingBucket dw fl := rfl

/-- Claim C5: the 8-point identifiability score is the sum of exactly the
three bucket contributions described by the claim, always lands in
`[0, 8]`, and the tier is "high" iff the score is ≥ 7, "medium" iff it is
5 or 6, and "low" iff it is ≤ 4. -/
theorem C5_identifiability_score (stability uniqueness avgDwell avgFlight : ℚ) :
    identifiabilityScore stability uniqueness avgDwell avgFlight =
      claimStabilityBucket stability + claimUniquenessBucket uniqueness +
        claimTimingBucket avgDwell avgFlight ∧
    identifiabilityScore stability uniqueness avgDwell avgFlight ≤ 8 ∧
    (∀ score : ℕ, (securityTier score = .high ↔ 7 ≤ score) ∧
      (securityTier score = .medium ↔ 5 ≤ score ∧ score ≤ 6) ∧
      (securityTier score = .low ↔ score ≤ 4)) := by
  refine ⟨?_, ?_, ?_⟩
  · simp only [identifiabilityScore]
    rw [stabilityBucket_eq, uniquenessBucket_eq, timingBucket_eq]
  · simp only [identifiabilityScore]
    split_ifs <;> norm_num
  · intro score
    unfold securityTier
    refine ⟨?_, ?_, ?_⟩ <;> split_ifs <;> simp_all <;> omega

/-! ## Digraph classification (script.js lines 758-776)

For each digraph with at least 2 DD samples, the loop computes
`avgTime = data.DD.reduce((a,b) => a+b, 0) / data.DD.length`,
`std = standardDeviation(data.DD)`, `cv = (std / avgTime) * 100`, and runs
four *independent* `if` pushes.  The `cv` comparisons involve `Math.sqrt`,
so the executable membership conditions below use the exact rational
equivalents of the JS float comparisons (for `v = sqDiffAvg DD ≥ 0`,
`a = avgTime`):

* `cv < 20`  ⟺  `a < 0` (then `cv ≤ 0`), or `a > 0 ∧ 25·v < a²`
  (squaring `√v < a/5`); for `a = 0` the JS value is `NaN` (`v = 0`) or
  `+Infinity` (`v > 0`), and the comparison is false;
* `cv > 40`  ⟺  `a > 0 ∧ 4·a² < 25·v`, or `a = 0 ∧ v > 0` (JS `+Infinity`);
  for `a < 0` the value is non-positive and for `a = 0, v = 0` it is `NaN`,
  both failing the comparison.

These equivalences are proved against the real-valued `digraphCV` in
`cvLt20_iff` / `cvGt40_iff`. -/

/-- `avgTime` of the classification loop (no length guard; the loop only
runs it when `DD.length >= 2`). -/
def ddMean (dd : List ℚ) : ℚ := dd.sum / dd.length

/-- The real-valued `cv = (std / avgTime) * 100` of the classification
loop. -/
noncomputable def digraphCV (dd : List ℚ) : ℝ :=
  standardDeviation dd / ((ddMean dd : ℚ) : ℝ) * 100

/-- Executable JS semantics of the loop's `cv < 20` comparison. -/
def cvLt20 (dd : List ℚ) : Bool :=
  decide (ddMean dd < 0) ||
    (decide (0 < ddMean dd) && decide (25 * sqDiffAvg dd < (ddMean dd) ^ 2))

/-- Executable JS semantics of the loop's `cv > 40` comparison. -/
def cvGt40 (dd : List ℚ) : Bool :=
  (decide (0 < ddMean dd) && decide (4 * (ddMean dd) ^ 2 < 25 * sqDiffAvg dd)) ||
    (decide (ddMean dd = 0) && decide (0 < sqDiffAvg dd))

theorem cvLt20_iff (dd : List ℚ) (hlen : dd ≠ []) (ha : ddMean dd ≠ 0) :
    cvLt20 dd = true ↔ digraphCV dd < 20 := by
  have hv : (0 : ℝ) ≤ ((sqDiffAvg dd : ℚ) : ℝ) := by exact_mod_cast sqDiffAvg_nonneg dd
  have hstd : standardDeviation dd = Real.sqrt (sqDiffAvg dd) := by
    unfold standardDeviation
    rw [if_neg (by simpa using hlen)]
  unfold digraphCV cvLt20
  rw [hstd]
  rcases lt_or_gt_of_ne ha with hneg | hpos
  · have hR : ((ddMean dd : ℚ) : ℝ) < 0 := by exact_mod_cast hneg
    have hrhs : Real.sqrt (sqDiffAvg dd) / ((ddMean dd : ℚ) : ℝ) * 100 < 20 := by
      have h1 : Real.sqrt (sqDiffAvg dd) / ((ddMean dd : ℚ) : ℝ) ≤ 0 :=
        div_nonpos_of_nonneg_of_nonpos (Real.sqrt_nonneg _) (le_of_lt hR)
      nlinarith
    simp [hneg, hrhs, not_lt_of_gt hneg]
  · have hR : (0 : ℝ) < ((ddMean dd : ℚ) : ℝ) := by exact_mod_cast hpos
    have hreal : Real.sqrt (sqDiffAvg dd) / ((ddMean dd : ℚ) : ℝ) * 100 < 20 ↔
        25 * ((sqDiffAvg dd : ℚ) : ℝ) < ((ddMean dd : ℚ) : ℝ) ^ 2 := by
      rw [div_mul_eq_mul_div, div_lt_iff₀ hR]
      constructor
      · intro h
        have h5 : Real.sqrt (sqDiffAvg dd) < ((ddMean dd : ℚ) : ℝ) / 5 := by linarith
        have h6 := (Real.sqrt_lt' (by linarith)).mp h5
        nlinarith
      · intro h
        have h6 : ((sqDiffAvg dd : ℚ) : ℝ) < (((ddMean dd : ℚ) : ℝ) / 5) ^ 2 := by nlinarith
        have h5 := (Real.sqrt_lt' (by linarith)).mpr h6
        linarith
    have hcast : (25 * sqDiffAvg dd < (ddMean dd) ^ 2) ↔
        (25 * ((sqDiffAvg dd : ℚ) : ℝ) < ((ddMean dd : ℚ) : ℝ) ^ 2) := by
      constructor <;> intro h <;> exact_mod_cast h
    simp only [Bool.or_eq_true, Bool.and_eq_true, decide_eq_true_eq]
    rw [hreal.symm] at hcast
    constructor
    · intro h
      rcases h with h | ⟨_, h2⟩
      · exact absurd h (not_lt_of_gt hpos)
      · exact hcast.mp h2
    · intro h
      exact Or.inr ⟨hpos, hcast.mpr h⟩

theorem cvGt40_iff (dd : List ℚ) (hlen : dd ≠ []) (ha : ddMean dd ≠ 0) :
    cvGt40 dd = true ↔ 40 < digraphCV dd := by
  have hv : (0 : ℝ) ≤ ((sqDiffAvg dd : ℚ) : ℝ) := by exact_mod_cast sqDiffAvg_nonneg dd
  have hstd : standardDeviation dd = Real.sqrt (sqDiffAvg dd) := by
    unfold standardDeviation
    rw [if_neg (by simpa using hlen)]
  unfold digraphCV cvGt40
  rw [hstd]
  rcases lt_or_gt_of_ne ha with hneg | hpos
  · have hR : ((ddMean dd : ℚ) : ℝ) < 0 := by exact_mod_cast hneg
    have hrhs : ¬(40 < Real.sqrt (sqDiffAvg dd) / ((ddMean dd : ℚ) : ℝ) * 100) := by
      have h1 : Real.sqrt (sqDiffAvg dd) / ((ddMean dd : ℚ) : ℝ) ≤ 0 :=
        div_nonpos_of_nonneg_of_nonpos (Real.sqrt_nonneg _) (le_of_lt hR)
      intro hc
      nlinarith
    simp [hrhs, not_lt_of_gt hneg, ha]
  · have hR : (0 : ℝ) < ((ddMean dd : ℚ) : ℝ) := by exact_mod_cast hpos
    have hreal : 40 < Real.sqrt (sqDiffAvg dd) / ((ddMean dd : ℚ) : ℝ) * 100 ↔
        4 * ((ddMean dd : ℚ) : ℝ) ^ 2 < 25 * ((sqDiffAvg dd : ℚ) : ℝ) := by
      rw [div_mul_eq_mul_div, lt_div_iff₀ hR]
      constructor
      · intro h
        have h5 : 2 * ((ddMean dd : ℚ) : ℝ) / 5 < Real.sqrt (sqDiffAvg dd) := by linarith
        have h6 := (Real.lt_sqrt (by linarith)).mp h5
        nlinarith
      · intro h
        have h6 : (2 * ((ddMean dd : ℚ) : ℝ) / 5) ^ 2 < ((sqDiffAvg dd : ℚ) : ℝ) := by
          nlinarith
        have h5 := (Real.lt_sqrt (by linarith)).mpr h6
        linarith
    have hcast : (4 * (ddMean dd) ^ 2 < 25 * sqDiffAvg dd) ↔
        (4 * ((ddMean dd : ℚ) : ℝ) ^ 2 < 25 * ((sqDiffAvg dd : ℚ) : ℝ)) := by
      constructor <;> intro h <;> exact_mod_cast h
    simp only [Bool.or_eq_true, Bool.and_eq_true, decide_eq_true_eq]
    constructor
    · intro h
      rcases h with ⟨_, h2⟩ | ⟨h0, _⟩
      · exact hreal.mpr (hcast.mp h2)
      · exact absurd h0 ha
    · intro h
      exact Or.inl ⟨hpos, hcast.mpr (hreal.mp h)⟩

/-- The four classification lists built by the loop (`digraphAnalysis` in
`analyzeKeystrokePattern`). -/
structure DigraphAnalysis where
  fast : List String
  slow : List String
  consistent : List String
  «variable» : List String

/-- Loop condition for the `fast` push: `data.DD.length >= 2 && avgTime < 200`. -/
def fastCond (p : String × DigraphStats) : Bool :=
  decide (2 ≤ p.2.DD.length) && decide (ddMean p.2.DD < 200)

/-- Loop condition for the `slow` push: `data.DD.length >= 2 && avgTime > 400`. -/
def slowCond (p : String × DigraphStats) : Bool :=
  decide (2 ≤ p.2.DD.length) && decide (400 < ddMean p.2.DD)

/-- Loop condition for the `consistent` push: `data.DD.length >= 2 && cv < 20`. -/
def consistentCond (p : String × DigraphStats) : Bool :=
  decide (2 ≤ p.2.DD.length) && cvLt20 p.2.DD

/-- Loop condition for the `variable` push: `data.DD.length >= 2 && cv > 40`. -/
def variableCond (p : String × DigraphStats) : Bool :=
  decide (2 ≤ p.2.DD.length) && cvGt40 p.2.DD

/-- The classification loop of `analyzeKeystrokePattern` (script.js lines
758-776): iterate the digraph map in insertion order and push the digraph
name onto each list whose condition holds (the four pushes are
independent). -/
def analyzeDigraphs (ds : List (String × DigraphStats)) : DigraphAnalysis :=
  { fast := (ds.filter fastCond).map Prod.fst
    slow := (ds.filter slowCond).map Prod.fst
    consistent := (ds.filter consistentCond).map Prod.fst
    «variable» := (ds.filter variableCond).map Prod.fst }

theorem keyVal_unique {α : Type} {ds : List (String × α)}
    (hnd : (ds.map Prod.fst).Nodup) {d : String} {s1 s2 : α}
    (h1 : (d, s1) ∈ ds) (h2 : (d, s2) ∈ ds) : s1 = s2 := by
  induction ds with
  | nil => simp at h1
  | cons q rest ih =>
    rw [List.map_cons, List.nodup_cons] at hnd
    rcases List.mem_cons.mp h1 with e1 | e1 <;> rcases List.mem_cons.mp h2 with e2 | e2
    · rw [← e1] at e2
      exact congrArg Prod.snd e2.symm
    · exfalso
      apply hnd.1
      rw [← e1]
      simp only [List.mem_map]
      exact ⟨(d, s2), e2, rfl⟩
    · exfalso
      apply hnd.1
      rw [← e2]
      simp only [List.mem_map]
      exact ⟨(d, s1), e1, rfl⟩
    · exact ih hnd.2 e1 e2

theorem mem_filter_map_fst {P : String × DigraphStats → Bool}
    {ds : List (String × DigraphStats)} {d : String} {s : DigraphStats}
    (hnd : (ds.map Prod.fst).Nodup) (hmem : (d, s) ∈ ds) :
    d ∈ ((ds.filter P).map Prod.fst) ↔ P (d, s) = true := by
  constructor
  · intro h
    simp only [List.mem_map] at h
    obtain ⟨p, hp, hfst⟩ := h
    rw [List.mem_filter] at hp
    cases p with
    | mk pd ps =>
      simp only at hfst
      subst hfst
      have : ps = s := keyVal_unique hnd hp.1 hmem
      rw [← this]
      exact hp.2
  · intro h
    simp only [List.mem_map]
    exact ⟨(d, s), List.mem_filter.mpr ⟨hmem, h⟩, rfl⟩

/-- Claim C8: for every digraph entry (with unique keys, as in a JS `Map`),
membership in the `fast` list is equivalent to having ≥2 DD samples and a
DD mean < 200 ms, in `slow` to a mean > 400 ms; with a non-zero mean (so
that the JS `cv` is a real number), membership in `consistent` is
equivalent to `cv < 20` and in `variable` to `cv > 40`; the four tests are
independent, and an entry with fewer than 2 DD samples lands in no list. -/
theorem C8_digraph_classification (ds : List (String × DigraphStats))
    (d : String) (s : DigraphStats)
    (hnd : (ds.map Prod.fst).Nodup) (hmem : (d, s) ∈ ds) :
    (d ∈ (analyzeDigraphs ds).fast ↔ 2 ≤ s.DD.length ∧ ddMean s.DD < 200) ∧
    (d ∈ (analyzeDigraphs ds).slow ↔ 2 ≤ s.DD.length ∧ 400 < ddMean s.DD) ∧
    (ddMean s.DD ≠ 0 → 2 ≤ s.DD.length →
      (d ∈ (analyzeDigraphs ds).consistent ↔ digraphCV s.DD < 20)) ∧
    (ddMean s.DD ≠ 0 → 2 ≤ s.DD.length →
      (d ∈ (analyzeDigraphs ds).«variable» ↔ 40 < digraphCV s.DD)) ∧
    (s.DD.length < 2 →
      d ∉ (analyzeDigraphs ds).fast ∧ d ∉ (analyzeDigraphs ds).slow ∧
      d ∉ (analyzeDigraphs ds).consistent ∧ d ∉ (analyzeDigraphs ds).«variable») := by
  have hfast := mem_filter_map_fst (P := fastCond) hnd hmem
  have hslow := mem_filter_map_fst (P := slowCond) hnd hmem
  have hcons := mem_filter_map_fst (P := consistentCond) hnd hmem
  have hvar := mem_filter_map_fst (P := variableCond) hnd hmem
  refine ⟨?_, ?_, ?_, ?_, ?_⟩
  · rw [show (analyzeDigraphs ds).fast = (ds.filter fastCond).map Prod.fst from rfl, hfast]
    simp [fastCond]
  · rw [show (analyzeDigraphs ds).slow = (ds.filter slowCond).map Prod.fst from rfl, hslow]
    simp [slowCond]
  · intro ha hlen
    have hne : s.DD ≠ [] := by
      intro hc
      rw [hc] at hlen
      simp at hlen
    rw [show (analyzeDigraphs ds).consistent = (ds.filter consistentCond).map Prod.fst from rfl,
      hcons]
    simp only [consistentCond, Bool.and_eq_true, decide_eq_true_eq]
    rw [cvLt20_iff s.DD hne ha]
    exact ⟨fun h => h.2, fun h => ⟨hlen, h⟩⟩
  · intro ha hlen
    have hne : s.DD ≠ [] := by
      intro hc
      rw [hc] at hlen
      simp at hlen
    rw [show (analyzeDigraphs ds).«variable» = (ds.filter variableCond).map Prod.fst from rfl,
      hvar]
    simp only [variableCond, Bool.and_eq_true, decide_eq_true_eq]
    rw [cvGt40_iff s.DD hne ha]
    exact ⟨fun h => h.2, fun h => ⟨hlen, h⟩⟩
  · intro hlt
    refine ⟨?_, ?_, ?_, ?_⟩ <;> intro hc
    · have := hfast.mp hc
      simp [fastCond] at this
      omega
    · have := hslow.mp hc
      simp [slowCond] at this
      omega
    · have := hcons.mp hc
      simp only [consistentCond, Bool.and_eq_true, decide_eq_true_eq] at this
      omega
    · have := hvar.mp hc
      simp only [variableCond, Bool.and_eq_true, decide_eq_true_eq] at this
      omega

/-- Test fixture for the C8 witness: one digraph with DD samples 100 and
120 ms (mean 110, non-zero). -/
def wStats : DigraphStats := ⟨[100, 120], [], [], []⟩

/-- Test fixture: a one-entry digraph map. -/
def wDs : List (String × DigraphStats) := [("th", wStats)]

/-- Witness for C8 at the concrete digraph map `wDs`. -/
theorem C8_digraph_classification_witness :
    ((wDs.map Prod.fst).Nodup ∧ ("th", wStats) ∈ wDs) ∧
    ((("th" : String) ∈ (analyzeDigraphs wDs).fast ↔
        2 ≤ wStats.DD.length ∧ ddMean wStats.DD < 200) ∧
     (("th" : String) ∈ (analyzeDigraphs wDs).slow ↔
        2 ≤ wStats.DD.length ∧ 400 < ddMean wStats.DD) ∧
     (ddMean wStats.DD ≠ 0 → 2 ≤ wStats.DD.length →
        (("th" : String) ∈ (analyzeDigraphs wDs).consistent ↔ digraphCV wStats.DD < 20)) ∧
     (ddMean wStats.DD ≠ 0 → 2 ≤ wStats.DD.length →
        (("th" : String) ∈ (analyzeDigraphs wDs).«variable» ↔ 40 < digraphCV wStats.DD)) ∧
     (wStats.DD.length < 2 →
        ("th" : String) ∉ (analyzeDigraphs wDs).fast ∧
        ("th" : String) ∉ (analyzeDigraphs wDs).slow ∧
        ("th" : String) ∉ (analyzeDigraphs wDs).consistent ∧
        ("th" : String) ∉ (analyzeDigraphs wDs).«variable»)) :=
  ⟨⟨by decide, by decide⟩,
    C8_digraph_classification wDs "th" wStats (by decide) (by decide)⟩
